import Mathlib

/-!
Verification of the `automateitall` Telegram/OpenAI gateway (`src/main.py`).

The development shallowly embeds the admission controller
(`is_rate_limited`, `is_image_rate_limited`), the command router
(`parse_image_command`), the group mention resolver (`is_bot_mentioned`,
`remove_bot_mention`) and the webhook orchestrator (`telegram_webhook`)
as pure Lean functions.  Timestamps (Python `time.time()` floats) are
modelled as rationals; Python strings are modelled as `List Char`;
the two module-level dictionaries become the two fields of `BotState`,
updated by explicit state passing.  Calls to external collaborators
(Telegram, OpenAI) are recorded as `Effect`s, with their success
outcomes supplied by an `Oracle`.
-/

namespace Automate

/-! ### Configuration constants (module header of `main.py`) -/

def RATE_LIMIT : Nat := 10

def RATE_WINDOW : ℚ := 60

def MAX_INPUT_LENGTH : Nat := 2000

def IMAGE_RATE_LIMIT : Nat := 5

def IMAGE_RATE_WINDOW : ℚ := 300

def REQUIRE_MENTION_IN_GROUPS : Bool := true

/-! ### String helpers (Python string semantics on `List Char`) -/

/-- The ASCII whitespace characters stripped by Python `str.strip()`. -/
def isPySpace (c : Char) : Bool :=
  c = ' ' || c = '\t' || c = '\n' || c = '\x0b' || c = '\x0c' || c = '\r'

/-- Python `str.lower()` (charwise, ASCII range as used by the bot). -/
def lowerL (l : List Char) : List Char := l.map Char.toLower

/-- Case-insensitive substring test: Python `pat.lower() in hay.lower()`. -/
def containsCI (hay pat : List Char) : Bool := decide (lowerL pat <:+: lowerL hay)

/-- Case-insensitive "matches at this position" test for literal patterns. -/
def ciStarts (pat l : List Char) : Bool := decide (lowerL pat <+: lowerL l)

/-- Python `str.strip()`. -/
def stripL (l : List Char) : List Char :=
  ((l.dropWhile isPySpace).reverse.dropWhile isPySpace).reverse

/-- Python `str.split(" ", 1)`: the part before the first space, and
(when a space exists) everything after it. -/
def splitOnce : List Char → List Char × Option (List Char)
  | [] => ([], none)
  | c :: cs =>
    if c = ' ' then ([], some cs)
    else
      let r := splitOnce cs
      (c :: r.1, r.2)

/-- One left-to-right pass of `re.sub(pat, "", text, flags=re.IGNORECASE)`
for a literal pattern `pat`: non-overlapping occurrences are removed, and
the scan resumes after each removed occurrence (the already-emitted output
is never re-scanned).  The fuel argument is initialised with the length of
the text, which one consumed character per step keeps sufficient. -/
def subCIAux (pat : List Char) : Nat → List Char → List Char
  | _, [] => []
  | 0, l => l
  | fuel + 1, c :: cs =>
    if ciStarts pat (c :: cs) then subCIAux pat fuel ((c :: cs).drop pat.length)
    else c :: subCIAux pat fuel cs

def subCI (l pat : List Char) : List Char := subCIAux pat l.length l

/-- Python `\w` on the ASCII range. -/
def isWordChar (c : Char) : Bool := c.isAlphanum || c = '_'

/-- One left-to-right pass of `re.sub(r"(/\w+)@username", r"\1", text,
flags=re.IGNORECASE)`: a slash followed by a maximal nonempty run of word
characters followed by the literal `pat` (`'@' :: username`) keeps the
slash and the run and drops the pattern.  Since `\w` never matches `@`,
greedy matching with backtracking coincides with matching the maximal run. -/
def subCmdAux (pat : List Char) : Nat → List Char → List Char
  | _, [] => []
  | 0, l => l
  | fuel + 1, c :: cs =>
    if c = '/' then
      let run := cs.takeWhile isWordChar
      let rest := cs.dropWhile isWordChar
      if run ≠ [] ∧ ciStarts pat rest then
        ('/' :: run) ++ subCmdAux pat fuel (rest.drop pat.length)
      else c :: subCmdAux pat fuel cs
    else c :: subCmdAux pat fuel cs

def subCmd (l pat : List Char) : List Char := subCmdAux pat l.length l

/-- Python `int()` applied to a rational: truncation toward zero. -/
def pyInt (q : ℚ) : Int := if 0 ≤ q then q.floor else -(-q).floor

/-- Python truthiness of `message.get(...)` for an id field:
`None` and `0` are falsy. -/
def truthyId : Option Int → Bool
  | none => false
  | some n => n ≠ 0

/-! ### Data model -/

/-- A Telegram message entity as read from the webhook JSON:
`entity.get("type")`, `entity.get("offset", 0)`, `entity.get("length", 0)`. -/
structure Entity where
  etype : String
  offset : Nat
  length : Nat
  deriving DecidableEq, Repr

/-- The fields of the webhook update that `telegram_webhook` reads.
`has_message` is `"message" in data`; the `Option` fields model absent
JSON keys; `text` and `caption` default to `""` when absent. -/
structure Update where
  has_message : Bool
  from_id : Option Int
  chat_id : Option Int
  chat_type : String
  message_id : Option Int
  text : List Char
  caption : List Char
  entities : List Entity
  caption_entities : List Entity
  has_reply : Bool
  reply_from_id : Option Int
  has_photo : Bool
  photo_file_id : Option String
  deriving DecidableEq, Repr

/-- The two module-level dictionaries, as total maps defaulting to `[]`
(mirroring `dict.get(user_id, [])`). -/
structure BotState where
  user_requests : Int → List ℚ
  user_image_requests : Int → List ℚ

def emptyState : BotState := ⟨fun _ => [], fun _ => []⟩

/-- Environment-derived configuration: `ALLOWED_USERS`, `ALLOWED_GROUPS`,
`BOT_USERNAME` and the bot's own id (`bot.get_me().id`). -/
structure Config where
  allowed_users : List Int
  allowed_groups : List Int
  bot_username : List Char
  bot_id : Int
  deriving DecidableEq, Repr

/-- Success/failure outcomes of the external collaborator calls made
during one webhook invocation. -/
structure Oracle where
  genOk : Bool
  editOk : Bool
  varOk : Bool
  downloadOk : Bool
  deriving DecidableEq, Repr

/-! ### Helper functions of `main.py` -/

/-- `is_group_chat` (line 130). -/
def is_group_chat (chat_type : String) : Bool :=
  ["group", "supergroup"].contains chat_type

/-- `is_bot_mentioned` (lines 134-169). -/
def is_bot_mentioned (text : List Char) (entities : List Entity)
    (bot_username : List Char) : Bool :=
  if text = [] ∨ bot_username = [] then false
  else
    let mention_pattern := '@' :: bot_username
    if containsCI text mention_pattern then true
    else
      entities.any fun e =>
        (e.etype == "mention" &&
          lowerL ((text.drop e.offset).take e.length) == lowerL mention_pattern)
        || (e.etype == "bot_command" &&
          containsCI ((text.drop e.offset).take e.length) mention_pattern)

/-- The mention gate of the webhook (line 555): the message is treated as
addressed to the bot when it is mentioned or the message is a direct reply
to a message of the bot. -/
def resolves_mention (text : List Char) (entities : List Entity)
    (is_reply_to_bot : Bool) (bot_username : List Char) : Bool :=
  is_bot_mentioned text entities bot_username || is_reply_to_bot

/-- `remove_bot_mention` (lines 171-182): remove `@username`, rewrite
`/command@username` to `/command`, then strip. -/
def remove_bot_mention (text : List Char) (bot_username : List Char) : List Char :=
  if text = [] ∨ bot_username = [] then text
  else
    let pat := '@' :: bot_username
    stripL (subCmd (subCI text pat) pat)

/-- The comprehension `[t for t in timestamps if now - t < window]`
shared by both limiters (lines 190 and 211). -/
def pruneLog (window now : ℚ) (l : List ℚ) : List ℚ :=
  l.filter fun t => now - t < window

/-- `is_rate_limited` (lines 184-198).  The pruned list is a fresh list;
on rejection nothing is written back to the store. -/
def is_rate_limited (s : BotState) (user_id : Int) (now : ℚ) : Bool × BotState :=
  let timestamps := pruneLog RATE_WINDOW now (s.user_requests user_id)
  if RATE_LIMIT ≤ timestamps.length then (true, s)
  else
    (false,
      { s with user_requests := Function.update s.user_requests user_id (timestamps ++ [now]) })

/-- `is_image_rate_limited` (lines 200-220). -/
def is_image_rate_limited (s : BotState) (user_id : Int) (now : ℚ) :
    (Bool × Option Int) × BotState :=
  let timestamps := pruneLog IMAGE_RATE_WINDOW now (s.user_image_requests user_id)
  if IMAGE_RATE_LIMIT ≤ timestamps.length then
    ((true, some (pyInt (timestamps.headI + IMAGE_RATE_WINDOW - now))), s)
  else
    ((false, none),
      { s with user_image_requests :=
          Function.update s.user_image_requests user_id (timestamps ++ [now]) })

/-- `parse_image_command` (lines 251-275). -/
def parse_image_command (text0 : List Char) : String × List Char :=
  let text := stripL text0
  if "/bild ".toList.isPrefixOf text || "/generate ".toList.isPrefixOf text then
    ("generate", ((splitOnce text).2).getD [])
  else if "/edit ".toList.isPrefixOf text || "/bearbeite ".toList.isPrefixOf text then
    ("edit", ((splitOnce text).2).getD [])
  else if "/variation".toList.isPrefixOf text || "/variante".toList.isPrefixOf text then
    ("variation", [])
  else ("text", text)

/-! ### The webhook orchestrator -/

/-- The distinct outbound text messages of `telegram_webhook`, tagged by
the site that sends them (the German message bodies are fixed strings in
the source; the data each one interpolates is carried as an argument). -/
inductive MsgKind where
  | accessDenied (uid : Int)
  | helpMsg
  | imageRateLimit (remaining : Option Int)
  | missingPrompt
  | generatingNotice
  | genFailed
  | missingPhotoEdit
  | missingDescription
  | editingNotice
  | downloadFailed
  | editFailed
  | missingPhotoVariation
  | variationNotice
  | variationFailed
  | textRateLimit (remaining : Int)
  | tooLong (len : Nat)
  | aiAnswer (prompt : List Char)
  deriving DecidableEq, Repr

/-- The captions of the three `send_photo` sites. -/
inductive PhotoKind where
  | generated
  | edited
  | varied
  deriving DecidableEq, Repr

/-- One outward-visible action of a webhook invocation, in program order. -/
inductive Effect where
  | sendMessage (chatId : Int) (kind : MsgKind) (replyTo : Option Int)
  | sendPhotoMsg (chatId : Int) (kind : PhotoKind) (replyTo : Option Int)
  | chatAction (chatId : Int) (action : String)
  | llmChat (prompt : List Char)
  | imageGen (prompt : List Char)
  | imageEdit (prompt : List Char)
  | imageVariation
  | downloadPhoto (fileId : Option String)
  deriving DecidableEq, Repr

/-- Line 529-530: when a photo carries a nonempty caption, the caption
replaces the text. -/
def effectiveText (upd : Update) : List Char :=
  if upd.has_photo ∧ upd.caption ≠ [] then upd.caption else upd.text

/-- Line 529-531: with the caption, the caption entities replace the
text entities. -/
def effectiveEntities (upd : Update) : List Entity :=
  if upd.has_photo ∧ upd.caption ≠ [] then upd.caption_entities else upd.entities

/-- `telegram_webhook` (lines 484-836), as a pure function from the
parsed update, the shared rate-limit store, and the two clock reads
(`now` for the admission checks, `now2` for the second `time.time()`
call on line 779) to the list of emitted effects and the new store.
External call outcomes are supplied by the `Oracle`. -/
def telegram_webhook (cfg : Config) (o : Oracle) (upd : Update) (s : BotState)
    (now now2 : ℚ) : List Effect × BotState :=
  if ¬ upd.has_message then ([], s)
  else
    let is_reply_to_bot : Bool := upd.has_reply && decide (upd.reply_from_id = some cfg.bot_id)
    let text1 := effectiveText upd
    let entities := effectiveEntities upd
    if truthyId upd.from_id = false ∨ truthyId upd.chat_id = false then ([], s)
    else
      let user_id := upd.from_id.getD 0
      let chat_id := upd.chat_id.getD 0
      let is_group := is_group_chat upd.chat_type
      let replyTo : Option Int := if is_group then upd.message_id else none
      if is_group ∧ cfg.allowed_groups ≠ [] ∧ chat_id ∉ cfg.allowed_groups then ([], s)
      else
        let bot_mentioned := is_bot_mentioned text1 entities cfg.bot_username
        if is_group ∧ REQUIRE_MENTION_IN_GROUPS ∧
            resolves_mention text1 entities is_reply_to_bot cfg.bot_username = false then
          ([], s)
        else
          let text := if is_group ∧ REQUIRE_MENTION_IN_GROUPS ∧ bot_mentioned then
              remove_bot_mention text1 cfg.bot_username
            else text1
          if ¬ is_group ∧ user_id ∉ cfg.allowed_users then
            ([.sendMessage chat_id (.accessDenied user_id) replyTo], s)
          else if is_group ∧ cfg.allowed_users ≠ [] ∧ user_id ∉ cfg.allowed_users then
            ([], s)
          else
            let cp := parse_image_command text
            let command := cp.1
            let prompt := cp.2
            if stripL text = "/help".toList ∨ stripL text = "/hilfe".toList ∨
                stripL text = "/start".toList then
              ([.sendMessage chat_id .helpMsg replyTo], s)
            else if command = "generate" ∨ command = "edit" ∨ command = "variation" then
              let r := is_image_rate_limited s user_id now
              let s1 := r.2
              if r.1.1 then ([.sendMessage chat_id (.imageRateLimit r.1.2) replyTo], s1)
              else if command = "generate" then
                if prompt = [] then ([.sendMessage chat_id .missingPrompt replyTo], s1)
                else
                  let pre := [Effect.sendMessage chat_id .generatingNotice replyTo,
                    .chatAction chat_id "upload_photo", .imageGen prompt]
                  if o.genOk then (pre ++ [.sendPhotoMsg chat_id .generated replyTo], s1)
                  else (pre ++ [.sendMessage chat_id .genFailed replyTo], s1)
              else if command = "edit" then
                if ¬ upd.has_photo then ([.sendMessage chat_id .missingPhotoEdit replyTo], s1)
                else if prompt = [] then
                  ([.sendMessage chat_id .missingDescription replyTo], s1)
                else
                  let pre := [Effect.sendMessage chat_id .editingNotice replyTo,
                    .chatAction chat_id "upload_photo", .downloadPhoto upd.photo_file_id]
                  if ¬ o.downloadOk then (pre ++ [.sendMessage chat_id .downloadFailed replyTo], s1)
                  else if o.editOk then
                    (pre ++ [.imageEdit prompt, .sendPhotoMsg chat_id .edited replyTo], s1)
                  else (pre ++ [.imageEdit prompt, .sendMessage chat_id .editFailed replyTo], s1)
              else
                if ¬ upd.has_photo then
                  ([.sendMessage chat_id .missingPhotoVariation replyTo], s1)
                else
                  let pre := [Effect.sendMessage chat_id .variationNotice replyTo,
                    .chatAction chat_id "upload_photo", .downloadPhoto upd.photo_file_id]
                  if ¬ o.downloadOk then (pre ++ [.sendMessage chat_id .downloadFailed replyTo], s1)
                  else if o.varOk then
                    (pre ++ [.imageVariation, .sendPhotoMsg chat_id .varied replyTo], s1)
                  else (pre ++ [.imageVariation, .sendMessage chat_id .variationFailed replyTo], s1)
            else
              let r := is_rate_limited s user_id now
              let s1 := r.2
              if r.1 then
                let remaining := (s1.user_requests user_id).headI + RATE_WINDOW - now2
                ([.sendMessage chat_id (.textRateLimit (pyInt remaining)) replyTo], s1)
              else if text = [] ∨ stripL text = [] then ([], s1)
              else if MAX_INPUT_LENGTH < text.length then
                ([.sendMessage chat_id (.tooLong text.length) replyTo], s1)
              else
                ([.chatAction chat_id "typing", .llmChat text,
                  .sendMessage chat_id (.aiAnswer text) replyTo], s1)

/-! ### Sequences of admission checks -/

/-- Run a sequence of text admission checks (each a `(user, time)` pair)
through the store, keeping only the store. -/
def runTextCalls : BotState → List (Int × ℚ) → BotState
  | s, [] => s
  | s, c :: cs => runTextCalls (is_rate_limited s c.1 c.2).2 cs

/-- Run a sequence of image admission checks through the store. -/
def runImageCalls : BotState → List (Int × ℚ) → BotState
  | s, [] => s
  | s, c :: cs => runImageCalls (is_image_rate_limited s c.1 c.2).2 cs

/-- Run a sequence of text checks for one user, given by call times. -/
def runUserText (s : BotState) (u : Int) (ts : List ℚ) : BotState :=
  runTextCalls s (ts.map fun t => (u, t))

/-- Run a sequence of image checks for one user. -/
def runUserImage (s : BotState) (u : Int) (ts : List ℚ) : BotState :=
  runImageCalls s (ts.map fun t => (u, t))

/-- Every text check of the sequence is admitted. -/
def textAdmitsAll : BotState → Int → List ℚ → Bool
  | _, _, [] => true
  | s, u, t :: ts =>
    !(is_rate_limited s u t).1 && textAdmitsAll (is_rate_limited s u t).2 u ts

/-- Every image check of the sequence is admitted. -/
def imageAdmitsAll : BotState → Int → List ℚ → Bool
  | _, _, [] => true
  | s, u, t :: ts =>
    !(is_image_rate_limited s u t).1.1 && imageAdmitsAll (is_image_rate_limited s u t).2 u ts

/-- The caption-substituted view of a photo update (lines 529-531). -/
def substMsg (upd : Update) : Update :=
  { upd with text := upd.caption, entities := upd.caption_entities }

/-! ### Basic lemmas about the admission controller -/

theorem is_rate_limited_reject {s : BotState} {u : Int} {now : ℚ}
    (h : RATE_LIMIT ≤ (pruneLog RATE_WINDOW now (s.user_requests u)).length) :
    is_rate_limited s u now = (true, s) := by
  simp only [is_rate_limited]
  rw [if_pos h]

theorem is_rate_limited_admitted {s : BotState} {u : Int} {now : ℚ}
    (h : (pruneLog RATE_WINDOW now (s.user_requests u)).length < RATE_LIMIT) :
    is_rate_limited s u now =
      (false, { s with user_requests :=
        Function.update s.user_requests u (pruneLog RATE_WINDOW now (s.user_requests u) ++ [now]) }) := by
  simp only [is_rate_limited]
  rw [if_neg (by omega)]

theorem is_image_rate_limited_reject {s : BotState} {u : Int} {now : ℚ}
    (h : IMAGE_RATE_LIMIT ≤ (pruneLog IMAGE_RATE_WINDOW now (s.user_image_requests u)).length) :
    is_image_rate_limited s u now =
      ((true, some (pyInt ((pruneLog IMAGE_RATE_WINDOW now (s.user_image_requests u)).headI +
        IMAGE_RATE_WINDOW - now))), s) := by
  simp only [is_image_rate_limited]
  rw [if_pos h]

theorem is_image_rate_limited_admitted {s : BotState} {u : Int} {now : ℚ}
    (h : (pruneLog IMAGE_RATE_WINDOW now (s.user_image_requests u)).length < IMAGE_RATE_LIMIT) :
    is_image_rate_limited s u now =
      ((false, none), { s with user_image_requests := Function.update s.user_image_requests u (pruneLog IMAGE_RATE_WINDOW now (s.user_image_requests u) ++ [now]) }) := by
  simp only [is_image_rate_limited]
  rw [if_neg (by omega)]

theorem is_rate_limited_image_map (s : BotState) (u : Int) (now : ℚ) :
    (is_rate_limited s u now).2.user_image_requests = s.user_image_requests := by
  simp only [is_rate_limited]
  split <;> rfl

theorem is_image_rate_limited_text_map (s : BotState) (u : Int) (now : ℚ) :
    (is_image_rate_limited s u now).2.user_requests = s.user_requests := by
  simp only [is_image_rate_limited]
  split <;> rfl

theorem is_rate_limited_congr {s s' : BotState} (u : Int) (now : ℚ)
    (h : s.user_requests = s'.user_requests) :
    (is_rate_limited s u now).1 = (is_rate_limited s' u now).1 := by
  simp only [is_rate_limited, h]
  by_cases hc : RATE_LIMIT ≤ (pruneLog RATE_WINDOW now (s'.user_requests u)).length
  · simp only [if_pos hc]
  · simp only [if_neg hc]

theorem is_image_rate_limited_congr {s s' : BotState} (u : Int) (now : ℚ)
    (h : s.user_image_requests = s'.user_image_requests) :
    (is_image_rate_limited s u now).1 = (is_image_rate_limited s' u now).1 := by
  simp only [is_image_rate_limited, h]
  by_cases hc : IMAGE_RATE_LIMIT ≤ (pruneLog IMAGE_RATE_WINDOW now (s'.user_image_requests u)).length
  · simp only [if_pos hc]
  · simp only [if_neg hc]

theorem runTextCalls_image_map (cs : List (Int × ℚ)) :
    ∀ s : BotState, (runTextCalls s cs).user_image_requests = s.user_image_requests := by
  induction cs with
  | nil => intro s; rfl
  | cons c cs ih =>
    intro s
    rw [runTextCalls, ih, is_rate_limited_image_map]

theorem runImageCalls_text_map (cs : List (Int × ℚ)) :
    ∀ s : BotState, (runImageCalls s cs).user_requests = s.user_requests := by
  induction cs with
  | nil => intro s; rfl
  | cons c cs ih =>
    intro s
    rw [runImageCalls, ih, is_image_rate_limited_text_map]

/-- C4: text admission checks and image admission checks live in the two
disjoint stores `user_requests` and `user_image_requests`: any sequence of
checks of one class leaves the other class's whole store, and therefore
every one of the other class's admission decisions, unchanged. -/
theorem C4_class_independence (s : BotState) (cs : List (Int × ℚ)) (u : Int) (now : ℚ) :
    (runTextCalls s cs).user_image_requests = s.user_image_requests ∧
    (is_image_rate_limited (runTextCalls s cs) u now).1 = (is_image_rate_limited s u now).1 ∧
    (runImageCalls s cs).user_requests = s.user_requests ∧
    (is_rate_limited (runImageCalls s cs) u now).1 = (is_rate_limited s u now).1 := by
  refine ⟨runTextCalls_image_map cs s, ?_, runImageCalls_text_map cs s, ?_⟩
  · exact is_image_rate_limited_congr u now (runTextCalls_image_map cs s)
  · exact is_rate_limited_congr u now (runImageCalls_text_map cs s)

/-- C3 as stated is false: on a rejected text check the stored log is left
completely unchanged (the pruned list is a fresh list that is only written
back on the admit path), so a stale entry (`-100`, far older than
`now - RATE_WINDOW = -30`) survives the rejection. -/
theorem C3_counterexample :
    (is_rate_limited
      ⟨fun v => if v = 7 then [-100, 0, 1, 2, 3, 4, 5, 6, 7, 8, 9] else [], fun _ => []⟩
      7 30).1 = true ∧
    (is_rate_limited
      ⟨fun v => if v = 7 then [-100, 0, 1, 2, 3, 4, 5, 6, 7, 8, 9] else [], fun _ => []⟩
      7 30).2.user_requests 7 = [-100, 0, 1, 2, 3, 4, 5, 6, 7, 8, 9] ∧
    (-100 : ℚ) < 30 - RATE_WINDOW := by
  refine ⟨?_, ?_, ?_⟩ <;> with_unfolding_all rfl

/-- C3 (amended): on a rejected admission check the stored log is left
entirely unchanged (the pruned list is discarded); on an admitted check the
stored log for that identity and class becomes the pruned log with `now`
appended, while every other identity's log and the whole other class's
store are untouched. -/
theorem C3_store_effects :
    (∀ (s : BotState) (u : Int) (now : ℚ), (is_rate_limited s u now).1 = true →
      (is_rate_limited s u now).2 = s) ∧
    (∀ (s : BotState) (u : Int) (now : ℚ), (is_rate_limited s u now).1 = false →
      (is_rate_limited s u now).2.user_requests u =
        pruneLog RATE_WINDOW now (s.user_requests u) ++ [now] ∧
      (∀ v, v ≠ u → (is_rate_limited s u now).2.user_requests v = s.user_requests v) ∧
      (is_rate_limited s u now).2.user_image_requests = s.user_image_requests) ∧
    (∀ (s : BotState) (u : Int) (now : ℚ), (is_image_rate_limited s u now).1.1 = true →
      (is_image_rate_limited s u now).2 = s) ∧
    (∀ (s : BotState) (u : Int) (now : ℚ), (is_image_rate_limited s u now).1.1 = false →
      (is_image_rate_limited s u now).2.user_image_requests u =
        pruneLog IMAGE_RATE_WINDOW now (s.user_image_requests u) ++ [now] ∧
      (∀ v, v ≠ u →
        (is_image_rate_limited s u now).2.user_image_requests v = s.user_image_requests v) ∧
      (is_image_rate_limited s u now).2.user_requests = s.user_requests) := by
  refine ⟨fun s u now h => ?_, fun s u now h => ?_, fun s u now h => ?_, fun s u now h => ?_⟩
  · by_cases hc : RATE_LIMIT ≤ (pruneLog RATE_WINDOW now (s.user_requests u)).length
    · rw [is_rate_limited_reject hc]
    · rw [is_rate_limited_admitted (by omega)] at h
      simp at h
  · by_cases hc : RATE_LIMIT ≤ (pruneLog RATE_WINDOW now (s.user_requests u)).length
    · rw [is_rate_limited_reject hc] at h
      simp at h
    · rw [is_rate_limited_admitted (by omega)]
      exact ⟨Function.update_same u _ _,
        fun v hv => Function.update_noteq hv _ _, rfl⟩
  · by_cases hc : IMAGE_RATE_LIMIT ≤ (pruneLog IMAGE_RATE_WINDOW now (s.user_image_requests u)).length
    · rw [is_image_rate_limited_reject hc]
    · rw [is_image_rate_limited_admitted (by omega)] at h
      simp at h
  · by_cases hc : IMAGE_RATE_LIMIT ≤ (pruneLog IMAGE_RATE_WINDOW now (s.user_image_requests u)).length
    · rw [is_image_rate_limited_reject hc] at h
      simp at h
    · rw [is_image_rate_limited_admitted (by omega)]
      exact ⟨Function.update_same u _ _,
        fun v hv => Function.update_noteq hv _ _, rfl⟩

/-! ### Admitted runs that exactly fill a window (C1) -/

theorem pruneLog_eq_self {w now : ℚ} {l : List ℚ} (h : ∀ t ∈ l, now - t < w) :
    pruneLog w now l = l := by
  unfold pruneLog
  exact List.filter_eq_self.mpr fun a ha => by simpa using h a ha

theorem pyInt_nonneg {q : ℚ} (h : 0 ≤ q) : 0 ≤ pyInt q := by
  unfold pyInt
  rw [if_pos h]
  exact Rat.le_floor.mpr (by exact_mod_cast h)

theorem headI_mem_of_ne_nil {l : List ℚ} (h : l ≠ []) : l.headI ∈ l := by
  cases l with
  | nil => exact absurd rfl h
  | cons a l => exact List.mem_cons_self a l

theorem runUserText_cons (s : BotState) (u : Int) (t : ℚ) (ts : List ℚ) :
    runUserText s u (t :: ts) = runUserText (is_rate_limited s u t).2 u ts := rfl

theorem runUserImage_cons (s : BotState) (u : Int) (t : ℚ) (ts : List ℚ) :
    runUserImage s u (t :: ts) = runUserImage (is_image_rate_limited s u t).2 u ts := rfl

/-- A run of text checks whose times are sorted, all inside the final
window, and few enough to fit the limit, is admitted throughout and simply
appends its times to the identity's log. -/
theorem runUserText_admits (u : Int) (now : ℚ) (ts : List ℚ) :
    ∀ s : BotState,
      List.Sorted (· ≤ ·) ts →
      (∀ t ∈ ts, t ≤ now ∧ now - t < RATE_WINDOW) →
      (∀ a ∈ s.user_requests u, ∀ t ∈ ts, t - a < RATE_WINDOW) →
      (s.user_requests u).length + ts.length ≤ RATE_LIMIT →
      textAdmitsAll s u ts = true ∧
      (runUserText s u ts).user_requests u = s.user_requests u ++ ts ∧
      (runUserText s u ts).user_image_requests = s.user_image_requests := by
  induction ts with
  | nil =>
    intro s _ _ _ _
    exact ⟨rfl, by simp [runUserText, runTextCalls], rfl⟩
  | cons t ts ih =>
    intro s hsort hwin hacc hlen
    have hwt := hwin t (List.mem_cons_self t ts)
    have hprune : pruneLog RATE_WINDOW t (s.user_requests u) = s.user_requests u :=
      pruneLog_eq_self fun a ha => hacc a ha t (List.mem_cons_self t ts)
    have hcount : (pruneLog RATE_WINDOW t (s.user_requests u)).length < RATE_LIMIT := by
      rw [hprune]
      simp only [List.length_cons] at hlen
      omega
    have hstep := is_rate_limited_admitted hcount
    rw [hprune] at hstep
    have hs1 : (is_rate_limited s u t).2.user_requests u = s.user_requests u ++ [t] := by
      rw [hstep]
      exact Function.update_same u _ _
    have himg1 : (is_rate_limited s u t).2.user_image_requests = s.user_image_requests := by
      rw [hstep]
    have hrec := ih (is_rate_limited s u t).2 (List.Sorted.of_cons hsort)
      (fun t' ht' => hwin t' (List.mem_cons_of_mem t ht'))
      (by
        intro a ha t' ht'
        rw [hs1] at ha
        rcases List.mem_append.mp ha with h1 | h1
        · exact hacc a h1 t' (List.mem_cons_of_mem t ht')
        · have hat : a = t := by simpa using h1
          have h2 := (hwin t' (List.mem_cons_of_mem t ht')).1
          have h3 := hwt.2
          subst hat
          linarith)
      (by
        rw [hs1]
        simp only [List.length_append, List.length_cons, List.length_nil] at hlen ⊢
        omega)
    refine ⟨?_, ?_, ?_⟩
    · show (!(is_rate_limited s u t).1 && textAdmitsAll (is_rate_limited s u t).2 u ts) = true
      rw [hstep]
      have h1 := hrec.1
      rw [hstep] at h1
      simpa using h1
    · rw [runUserText_cons, hrec.2.1, hs1]
      simp
    · rw [runUserText_cons, hrec.2.2, himg1]

/-- The image analogue of `runUserText_admits`. -/
theorem runUserImage_admits (u : Int) (now : ℚ) (ts : List ℚ) :
    ∀ s : BotState,
      List.Sorted (· ≤ ·) ts →
      (∀ t ∈ ts, t ≤ now ∧ now - t < IMAGE_RATE_WINDOW) →
      (∀ a ∈ s.user_image_requests u, ∀ t ∈ ts, t - a < IMAGE_RATE_WINDOW) →
      (s.user_image_requests u).length + ts.length ≤ IMAGE_RATE_LIMIT →
      imageAdmitsAll s u ts = true ∧
      (runUserImage s u ts).user_image_requests u = s.user_image_requests u ++ ts ∧
      (runUserImage s u ts).user_requests = s.user_requests := by
  induction ts with
  | nil =>
    intro s _ _ _ _
    exact ⟨rfl, by simp [runUserImage, runImageCalls], rfl⟩
  | cons t ts ih =>
    intro s hsort hwin hacc hlen
    have hwt := hwin t (List.mem_cons_self t ts)
    have hprune : pruneLog IMAGE_RATE_WINDOW t (s.user_image_requests u) = s.user_image_requests u :=
      pruneLog_eq_self fun a ha => hacc a ha t (List.mem_cons_self t ts)
    have hcount : (pruneLog IMAGE_RATE_WINDOW t (s.user_image_requests u)).length < IMAGE_RATE_LIMIT := by
      rw [hprune]
      simp only [List.length_cons] at hlen
      omega
    have hstep := is_image_rate_limited_admitted hcount
    rw [hprune] at hstep
    have hs1 : (is_image_rate_limited s u t).2.user_image_requests u =
        s.user_image_requests u ++ [t] := by
      rw [hstep]
      exact Function.update_same u _ _
    have htxt1 : (is_image_rate_limited s u t).2.user_requests = s.user_requests := by
      rw [hstep]
    have hrec := ih (is_image_rate_limited s u t).2 (List.Sorted.of_cons hsort)
      (fun t' ht' => hwin t' (List.mem_cons_of_mem t ht'))
      (by
        intro a ha t' ht'
        rw [hs1] at ha
        rcases List.mem_append.mp ha with h1 | h1
        · exact hacc a h1 t' (List.mem_cons_of_mem t ht')
        · have hat : a = t := by simpa using h1
          have h2 := (hwin t' (List.mem_cons_of_mem t ht')).1
          have h3 := hwt.2
          subst hat
          linarith)
      (by
        rw [hs1]
        simp only [List.length_append, List.length_cons, List.length_nil] at hlen ⊢
        omega)
    refine ⟨?_, ?_, ?_⟩
    · show (!(is_image_rate_limited s u t).1.1 &&
        imageAdmitsAll (is_image_rate_limited s u t).2 u ts) = true
      rw [hstep]
      have h1 := hrec.1
      rw [hstep] at h1
      simpa using h1
    · rw [runUserImage_cons, hrec.2.1, hs1]
      simp
    · rw [runUserImage_cons, hrec.2.2, htxt1]

/-- C1 as stated is false in its `retry_after > 0` part: five image
requests admitted at times 10,11,12,13,14 followed by a check at
`now = 309.5` (still inside the 300-second window of the oldest entry,
which has `0.5` seconds left) are rejected with a reported remaining time
of `int(10 + 300 - 309.5) = 0`, not a strictly positive value. -/
theorem C1_counterexample :
    imageAdmitsAll emptyState 7 [10, 11, 12, 13, 14] = true ∧
    (309.5 : ℚ) - 10 < IMAGE_RATE_WINDOW ∧
    (is_image_rate_limited (runUserImage emptyState 7 [10, 11, 12, 13, 14]) 7 309.5).1 =
      (true, some 0) := by
  refine ⟨?_, ?_, ?_⟩ <;> with_unfolding_all rfl

/-- C1 (amended): for each class, after exactly `limit` admitted checks
whose timestamps all lie within one window of the check time `now`, the
next check at `now` is rejected — `is_rate_limited` returns `True`, and
`is_image_rate_limited` returns `(True, remaining)` where `remaining` is
the truncation of `oldest + window - now`, a nonnegative value that can be
`0` when less than one second of the window remains. -/
theorem C1_window_fill_rejects :
    (∀ (u : Int) (ts : List ℚ) (now : ℚ),
      ts.length = RATE_LIMIT →
      List.Sorted (· ≤ ·) ts →
      (∀ t ∈ ts, t ≤ now ∧ now - t < RATE_WINDOW) →
      textAdmitsAll emptyState u ts = true ∧
      (is_rate_limited (runUserText emptyState u ts) u now).1 = true) ∧
    (∀ (u : Int) (ts : List ℚ) (now : ℚ),
      ts.length = IMAGE_RATE_LIMIT →
      List.Sorted (· ≤ ·) ts →
      (∀ t ∈ ts, t ≤ now ∧ now - t < IMAGE_RATE_WINDOW) →
      imageAdmitsAll emptyState u ts = true ∧
      (is_image_rate_limited (runUserImage emptyState u ts) u now).1.1 = true ∧
      (is_image_rate_limited (runUserImage emptyState u ts) u now).1.2 =
        some (pyInt (ts.headI + IMAGE_RATE_WINDOW - now)) ∧
      ∀ r : Int,
        (is_image_rate_limited (runUserImage emptyState u ts) u now).1.2 = some r → 0 ≤ r) := by
  constructor
  · intro u ts now hlen hsort hwin
    have hrun := runUserText_admits u now ts emptyState hsort hwin
      (by intro a ha; simp [emptyState] at ha) (by simp [emptyState]; omega)
    have hlog : (runUserText emptyState u ts).user_requests u = ts := by
      rw [hrun.2.1]
      simp [emptyState]
    refine ⟨hrun.1, ?_⟩
    have hp : pruneLog RATE_WINDOW now ((runUserText emptyState u ts).user_requests u) = ts := by
      rw [hlog]
      exact pruneLog_eq_self fun t ht => (hwin t ht).2
    rw [is_rate_limited_reject (by rw [hp, hlen])]
  · intro u ts now hlen hsort hwin
    have hrun := runUserImage_admits u now ts emptyState hsort hwin
      (by intro a ha; simp [emptyState] at ha) (by simp [emptyState]; omega)
    have hlog : (runUserImage emptyState u ts).user_image_requests u = ts := by
      rw [hrun.2.1]
      simp [emptyState]
    have hp : pruneLog IMAGE_RATE_WINDOW now
        ((runUserImage emptyState u ts).user_image_requests u) = ts := by
      rw [hlog]
      exact pruneLog_eq_self fun t ht => (hwin t ht).2
    have hrej := is_image_rate_limited_reject (show IMAGE_RATE_LIMIT ≤ (pruneLog IMAGE_RATE_WINDOW now ((runUserImage emptyState u ts).user_image_requests u)).length by rw [hp, hlen])
    rw [hp] at hrej
    have hne : ts ≠ [] := by
      intro hnil
      rw [hnil] at hlen
      simp [IMAGE_RATE_LIMIT] at hlen
    have hpos : (0 : ℚ) ≤ ts.headI + IMAGE_RATE_WINDOW - now := by
      have := (hwin ts.headI (headI_mem_of_ne_nil hne)).2
      linarith
    refine ⟨hrun.1, by rw [hrej], by rw [hrej], ?_⟩
    intro r hr
    rw [hrej] at hr
    simp only [Option.some.injEq] at hr
    rw [← hr]
    exact pyInt_nonneg hpos

/-- Witness for C1: ten text requests at times 0..9 and a check at 10,
five image requests at times 0..4 and a check at 5; both final checks are
rejected, the image one with remaining `int(0 + 300 - 5) = 295 ≥ 0`. -/
theorem C1_window_fill_rejects_witness :
    (textAdmitsAll emptyState 7 [0, 1, 2, 3, 4, 5, 6, 7, 8, 9] = true ∧
      (is_rate_limited (runUserText emptyState 7 [0, 1, 2, 3, 4, 5, 6, 7, 8, 9]) 7 10).1 = true) ∧
    (is_image_rate_limited (runUserImage emptyState 7 [0, 1, 2, 3, 4]) 7 5).1.2 =
      some (pyInt ((0 : ℚ) + IMAGE_RATE_WINDOW - 5)) := by
  constructor
  · exact C1_window_fill_rejects.1 7 [0, 1, 2, 3, 4, 5, 6, 7, 8, 9]
      10 (by with_unfolding_all rfl)
      (by simp [List.sorted_cons]; norm_num)
      (by
        intro t ht
        fin_cases ht <;> constructor <;> with_unfolding_all rfl)
  · have h := (C1_window_fill_rejects.2 7 [0, 1, 2, 3, 4] 5 (by with_unfolding_all rfl)
      (by simp [List.sorted_cons]; norm_num)
      (by
        intro t ht
        fin_cases ht <;> constructor <;> with_unfolding_all rfl)).2.2.1
    simpa using h

/-! ### Command routing (C5) -/

theorem dropWhile_head_false {p : Char → Bool} :
    ∀ (l : List Char) (c : Char) (rest : List Char),
      l.dropWhile p = c :: rest → p c = false := by
  intro l
  induction l with
  | nil => intro c rest h; simp [List.dropWhile] at h
  | cons a as ih =>
    intro c rest h
    by_cases ha : p a
    · rw [List.dropWhile_cons_of_pos ha] at h
      exact ih c rest h
    · rw [List.dropWhile_cons_of_neg ha] at h
      cases h
      simpa using ha

/-- `str.strip()` output never ends in a whitespace character. -/
theorem stripL_ne_snoc_space (l init : List Char) {c : Char} (hc : isPySpace c = true) :
    stripL l ≠ init ++ [c] := by
  intro h
  unfold stripL at h
  have h2 : (l.dropWhile isPySpace).reverse.dropWhile isPySpace = c :: init.reverse := by
    have := congrArg List.reverse h
    simpa using this
  have := dropWhile_head_false _ _ _ h2
  rw [hc] at this
  simp at this

theorem stripL_eq_self {l : List Char}
    (h1 : ∀ c, l.head? = some c → isPySpace c = false)
    (h2 : ∀ c, l.getLast? = some c → isPySpace c = false) : stripL l = l := by
  unfold stripL
  have e1 : l.dropWhile isPySpace = l := by
    cases l with
    | nil => rfl
    | cons a as => rw [List.dropWhile_cons_of_neg (by simp [h1 a rfl])]
  rw [e1]
  have e2 : l.reverse.dropWhile isPySpace = l.reverse := by
    cases hrev : l.reverse with
    | nil => rfl
    | cons a as =>
      have ha : l.getLast? = some a := by
        rw [← List.head?_reverse, hrev]
        rfl
      rw [List.dropWhile_cons_of_neg (by simp [h2 a ha])]
  rw [e2, List.reverse_reverse]

theorem splitOnce_append (pre r : List Char) (hpre : ∀ c ∈ pre, c ≠ ' ') :
    splitOnce (pre ++ ' ' :: r) = (pre, some r) := by
  induction pre with
  | nil => simp [splitOnce]
  | cons a as ih =>
    have ha : a ≠ ' ' := hpre a (List.mem_cons_self a as)
    rw [List.cons_append]
    simp only [splitOnce, if_neg ha]
    rw [ih fun c hc => hpre c (List.mem_cons_of_mem a hc)]

/-- If a stripped text starts with one of the spaced command tokens, the
part after the first space is nonempty (a stripped string cannot end in a
space), so the extracted prompt is never the empty string. -/
theorem parse_prompt_of_spaced_token (t : List Char) (tok : List Char)
    (htok : ∀ c ∈ tok, c ≠ ' ')
    (hpre : (tok ++ [' ']) <+: stripL t) :
    (splitOnce (stripL t)).2.getD [] ≠ [] := by
  obtain ⟨r, hr⟩ := hpre
  have hr' : stripL t = tok ++ ' ' :: r := by
    rw [← hr]
    simp
  cases r with
  | nil =>
    exact absurd hr' (stripL_ne_snoc_space t tok (by rfl))
  | cons b bs =>
    rw [hr', splitOnce_append tok (b :: bs) htok]
    simp

/-- C5 as stated is false: command matching is case-sensitive (an
upper-case `/BILD` falls through to chat), and a bare command token with
nothing after it also falls through to chat instead of producing an
image intent with an empty payload. -/
theorem C5_counterexample :
    parse_image_command "/BILD a red apple".toList = ("text", "/BILD a red apple".toList) ∧
    parse_image_command "/bild".toList = ("text", "/bild".toList) := by
  constructor <;> with_unfolding_all rfl

/-- C5 (amended): classification is prefix-based and case-sensitive,
requiring a space after `/bild`, `/generate`, `/edit`, `/bearbeite` (none
after `/variation`/`/variante`); the payload is everything after the first
space, case-preserved; a bare command token or any other casing falls
through to chat with the full trimmed text; and a `generate`/`edit`
classification never carries an empty payload, so the orchestrator's
missing-description error cannot be reached through the router. -/
theorem C5_router :
    parse_image_command "/bild a RED Apple".toList = ("generate", "a RED Apple".toList) ∧
    parse_image_command "/generate a cat".toList = ("generate", "a cat".toList) ∧
    parse_image_command "/edit mach es blau".toList = ("edit", "mach es blau".toList) ∧
    parse_image_command "/bearbeite mach Es blau".toList = ("edit", "mach Es blau".toList) ∧
    parse_image_command "/variation whatever".toList = ("variation", []) ∧
    parse_image_command "/variante".toList = ("variation", []) ∧
    parse_image_command "  hello World  ".toList = ("text", "hello World".toList) ∧
    (∀ t : List Char, (parse_image_command t).1 = "generate" → (parse_image_command t).2 ≠ []) ∧
    (∀ t : List Char, (parse_image_command t).1 = "edit" → (parse_image_command t).2 ≠ []) ∧
    (∀ r : List Char, r ≠ [] → (∀ c, r.getLast? = some c → isPySpace c = false) →
      parse_image_command ("/bild ".toList ++ r) = ("generate", r)) := by
  refine ⟨by with_unfolding_all rfl, by with_unfolding_all rfl, by with_unfolding_all rfl,
    by with_unfolding_all rfl, by with_unfolding_all rfl, by with_unfolding_all rfl,
    by with_unfolding_all rfl, ?_, ?_, ?_⟩
  · intro t hcmd
    unfold parse_image_command at hcmd ⊢
    by_cases h1 : "/bild ".toList.isPrefixOf (stripL t) || "/generate ".toList.isPrefixOf (stripL t)
    · rw [if_pos h1] at hcmd ⊢
      simp only [ne_eq]
      rcases Bool.or_eq_true_iff.mp h1 with h | h
      · exact parse_prompt_of_spaced_token t "/bild".toList (by decide)
          (by simpa using List.isPrefixOf_iff_prefix.mp h)
      · exact parse_prompt_of_spaced_token t "/generate".toList (by decide)
          (by simpa using List.isPrefixOf_iff_prefix.mp h)
    · rw [if_neg (by simpa using h1)] at hcmd
      split at hcmd <;> simp_all
      split at hcmd <;> simp_all
  · intro t hcmd
    unfold parse_image_command at hcmd ⊢
    by_cases h1 : "/bild ".toList.isPrefixOf (stripL t) || "/generate ".toList.isPrefixOf (stripL t)
    · rw [if_pos h1] at hcmd
      simp at hcmd
    · rw [if_neg (by simpa using h1)] at hcmd ⊢
      by_cases h2 : "/edit ".toList.isPrefixOf (stripL t) || "/bearbeite ".toList.isPrefixOf (stripL t)
      · rw [if_pos h2] at hcmd ⊢
        simp only [ne_eq]
        rcases Bool.or_eq_true_iff.mp h2 with h | h
        · exact parse_prompt_of_spaced_token t "/edit".toList (by decide)
            (by simpa using List.isPrefixOf_iff_prefix.mp h)
        · exact parse_prompt_of_spaced_token t "/bearbeite".toList (by decide)
            (by simpa using List.isPrefixOf_iff_prefix.mp h)
      · rw [if_neg (by simpa using h2)] at hcmd
        split at hcmd <;> simp_all
  · intro r hne hlast
    have hstrip : stripL ("/bild ".toList ++ r) = "/bild ".toList ++ r := by
      apply stripL_eq_self
      · intro c hc
        simp only [List.head?] at hc
        cases hc
        rfl
      · intro c hc
        rw [List.getLast?_append_of_ne_nil _ hne] at hc
        exact hlast c hc
    unfold parse_image_command
    rw [hstrip]
    have hpre : "/bild ".toList.isPrefixOf ("/bild ".toList ++ r) = true :=
      List.isPrefixOf_iff_prefix.mpr ⟨r, rfl⟩
    rw [if_pos (by simp [hpre])]
    have : ("/bild ".toList ++ r) = "/bild".toList ++ ' ' :: r := by simp
    rw [this, splitOnce_append _ _ (by decide)]
    rfl

/-! ### Mention cleaning (C6) -/

/-- C6 as stated is false in its "strips all literal occurrences" part:
`re.sub` makes a single left-to-right pass over the original text, so when
removing `@mybot` from `xx@myb@mybotot` splices the surrounding fragments
into a fresh `@mybot`, that occurrence survives cleaning. -/
theorem C6_counterexample :
    remove_bot_mention "xx@myb@mybotot".toList "mybot".toList = "xx@mybot".toList ∧
    containsCI (remove_bot_mention "xx@myb@mybotot".toList "mybot".toList)
      ('@' :: "mybot".toList) = true := by
  constructor <;> with_unfolding_all rfl

/-- C6 (amended): the round-trip example holds, `/command@handle` is
rewritten to `/command`, removal is case-insensitive and the result is
trimmed; but stripping is one non-overlapping left-to-right pass over the
original text, so an occurrence of `@handle` formed by fragments adjacent
to a removed occurrence survives. -/
theorem C6_mention_cleaning :
    remove_bot_mention "/bild@mybot a cat".toList "mybot".toList = "/bild a cat".toList ∧
    remove_bot_mention "/cmd@myb@mybotot".toList "mybot".toList = "/cmd".toList ∧
    remove_bot_mention "  @MyBot hello  ".toList "mybot".toList = "hello".toList := by
  refine ⟨?_, ?_, ?_⟩ <;> with_unfolding_all rfl

/-! ### Mention resolution (C7) -/

/-- A lower-cased slice `text[o:o+len]` is an infix of the lower-cased
text. -/
theorem lowerL_slice_inside (text : List Char) (o len : Nat) :
    lowerL ((text.drop o).take len) <:+: lowerL text := by
  have h1 : lowerL ((text.drop o).take len) = ((lowerL text).drop o).take len := by
    simp [lowerL, List.map_take, List.map_drop]
  rw [h1]
  exact ((List.take_prefix len _).isInfix).trans ((List.drop_suffix o _).isInfix)

/-- When the text does not contain `@handle` case-insensitively, no entity
check can fire either, because every entity check compares against a slice
of the same text. -/
theorem is_bot_mentioned_false {text : List Char} {entities : List Entity}
    {handle : List Char} (hcont : containsCI text ('@' :: handle) = false) :
    is_bot_mentioned text entities handle = false := by
  unfold is_bot_mentioned
  by_cases hguard : text = [] ∨ handle = []
  · rw [if_pos hguard]
  · rw [if_neg hguard]
    have hcont' : ¬ lowerL ('@' :: handle) <:+: lowerL text := by
      rw [containsCI] at hcont
      simpa using hcont
    rw [if_neg (by simp [containsCI, hcont'])]
    rw [List.any_eq_false]
    intro e he hf
    rcases Bool.or_eq_true_iff.mp hf with h | h
    · obtain ⟨hty, heq⟩ := Bool.and_eq_true_iff.mp h
      have heq' : lowerL ((text.drop e.offset).take e.length) = lowerL ('@' :: handle) := by
        simpa using heq
      have hinf := lowerL_slice_inside text e.offset e.length
      rw [heq'] at hinf
      exact hcont' hinf
    · obtain ⟨hty, hsub⟩ := Bool.and_eq_true_iff.mp h
      have hinf1 : lowerL ('@' :: handle) <:+: lowerL ((text.drop e.offset).take e.length) := by
        rw [containsCI] at hsub
        simpa using hsub
      exact hcont' (hinf1.trans (lowerL_slice_inside text e.offset e.length))

theorem is_bot_mentioned_of_contains {text : List Char} {entities : List Entity}
    {handle : List Char} (hh : handle ≠ [])
    (hcont : containsCI text ('@' :: handle) = true) :
    is_bot_mentioned text entities handle = true := by
  unfold is_bot_mentioned
  have htext : text ≠ [] := by
    intro h
    rw [containsCI, h] at hcont
    simp [lowerL] at hcont
  rw [if_neg (by simp [htext, hh])]
  simp [hcont]

/-- C7: mention resolution is true whenever the text contains `@handle`
case-insensitively; false when the text lacks it (for any entity
annotations) and the message is not a reply to the bot; and true for a
direct reply to the bot regardless of the text. -/
theorem C7_mention_resolution (text : List Char) (entities : List Entity) (reply : Bool)
    (handle : List Char) (hh : handle ≠ []) :
    (containsCI text ('@' :: handle) = true →
      resolves_mention text entities reply handle = true) ∧
    (containsCI text ('@' :: handle) = false → reply = false →
      resolves_mention text entities reply handle = false) ∧
    (reply = true → resolves_mention text entities reply handle = true) := by
  refine ⟨fun hc => ?_, fun hc hr => ?_, fun hr => ?_⟩
  · unfold resolves_mention
    rw [is_bot_mentioned_of_contains hh hc]
    rfl
  · unfold resolves_mention
    rw [is_bot_mentioned_false hc, hr]
    rfl
  · unfold resolves_mention
    rw [hr]
    simp

/-- Witness for C7: `@MyBot` inside text resolves; text without the handle
and a non-matching mention entity does not resolve; a reply to the bot
resolves with unrelated text. -/
theorem C7_mention_resolution_witness :
    resolves_mention "hi @MyBot".toList [] false "mybot".toList = true ∧
    resolves_mention "hello".toList [⟨"mention", 0, 5⟩] false "mybot".toList = false ∧
    resolves_mention "anything".toList [] true "mybot".toList = true := by
  refine ⟨(C7_mention_resolution _ [] false _ (by decide)).1 (by with_unfolding_all rfl),
    (C7_mention_resolution _ _ false _ (by decide)).2.1 (by with_unfolding_all rfl) rfl,
    (C7_mention_resolution _ [] true _ (by decide)).2.2 rfl⟩

/-- Witness for C5: the spaced-token general clause at the concrete
payload "dog", and the never-empty-payload clause at "/bild cat". -/
theorem C5_router_witness :
    parse_image_command ("/bild ".toList ++ "dog".toList) = ("generate", "dog".toList) ∧
    (parse_image_command "/bild cat".toList).2 ≠ [] := by
  constructor
  · exact C5_router.2.2.2.2.2.2.2.2.2 "dog".toList (by decide)
      (by
        intro c hc
        have h1 : c = 'g' := by
          have h0 : "dog".toList.getLast? = some 'g' := by rfl
          rw [h0] at hc
          exact (Option.some.injEq _ _).mp hc.symm
        rw [h1]
        rfl)
  · exact C5_router.2.2.2.2.2.2.2.1 "/bild cat".toList (by with_unfolding_all rfl)

/-! ### Allow-list behaviour of the webhook (C8, C9) -/

/-- In a private chat, a sender missing from the allow-list gets exactly
one access-denied message and nothing else; the store is untouched. -/
theorem webhook_private_denied (cfg : Config) (o : Oracle) (upd : Update) (s : BotState)
    (now now2 : ℚ) (uid cid : Int)
    (hm : upd.has_message = true) (hf : upd.from_id = some uid) (hu0 : uid ≠ 0)
    (hc : upd.chat_id = some cid) (hc0 : cid ≠ 0)
    (hg : is_group_chat upd.chat_type = false)
    (hnotin : uid ∉ cfg.allowed_users) :
    telegram_webhook cfg o upd s now now2 =
      ([Effect.sendMessage cid (MsgKind.accessDenied uid) none], s) := by
  simp [telegram_webhook, hm, hf, hc, hg, hu0, hc0, hnotin, truthyId]

set_option maxHeartbeats 1000000 in
/-- C8: the allow-list check is asymmetric by chat kind — private unlisted
senders get exactly one access-denied reply and nothing else happens
(state untouched, no LLM call, no dispatch), while in a group a sender
missing from a nonempty allow-list produces no effect at all. -/
theorem C8_allowlist_asymmetry :
    (∀ (cfg : Config) (o : Oracle) (upd : Update) (s : BotState) (now now2 : ℚ)
      (uid cid : Int),
      upd.has_message = true →
      upd.from_id = some uid → uid ≠ 0 →
      upd.chat_id = some cid → cid ≠ 0 →
      is_group_chat upd.chat_type = false →
      uid ∉ cfg.allowed_users →
      telegram_webhook cfg o upd s now now2 =
        ([Effect.sendMessage cid (MsgKind.accessDenied uid) none], s)) ∧
    (∀ (cfg : Config) (o : Oracle) (upd : Update) (s : BotState) (now now2 : ℚ)
      (uid : Int),
      upd.from_id = some uid →
      is_group_chat upd.chat_type = true →
      cfg.allowed_users ≠ [] →
      uid ∉ cfg.allowed_users →
      telegram_webhook cfg o upd s now now2 = ([], s)) := by
  constructor
  · exact fun cfg o upd s now now2 uid cid => webhook_private_denied cfg o upd s now now2 uid cid
  · intro cfg o upd s now now2 uid hf hg hne hnotin
    simp [telegram_webhook, hg, hne, hnotin, hf]

/-- Witness for C8: user 7 in a private chat with allow-list `[9]` gets
the denial; the same user in an allowed-nonempty-list group is silently
ignored. -/
theorem C8_allowlist_asymmetry_witness :
    telegram_webhook ⟨[9], [], "mybot".toList, 99⟩ ⟨true, true, true, true⟩
        ⟨true, some 7, some 42, "private", some 1, "hi".toList, [], [], [], false, none,
          false, none⟩ emptyState 0 0 =
      ([Effect.sendMessage 42 (MsgKind.accessDenied 7) none], emptyState) ∧
    telegram_webhook ⟨[9], [], "mybot".toList, 99⟩ ⟨true, true, true, true⟩
        ⟨true, some 7, some (-100), "group", some 1, "@mybot hi".toList, [], [], [], false,
          none, false, none⟩ emptyState 0 0 = ([], emptyState) := by
  constructor
  · exact C8_allowlist_asymmetry.1 _ _ _ _ 0 0 7 42 rfl rfl (by decide) rfl (by decide)
      rfl (by decide)
  · exact C8_allowlist_asymmetry.2 _ _ _ _ 0 0 7 rfl rfl (by decide) (by decide)

/-- C9 as stated is false for group chats: with an **empty** identity
allow-list the per-user group check (line 579, `if is_group and
ALLOWED_USERS and ...`) is skipped entirely, so a mentioned group message
from any identity flows through to intent dispatch and an LLM call. -/
theorem C9_counterexample :
    (telegram_webhook ⟨[], [], "mybot".toList, 99⟩ ⟨true, true, true, true⟩
        ⟨true, some 7, some (-100), "group", some 55, "@mybot hi".toList, [], [], [], false,
          none, false, none⟩ emptyState 0 0).1 =
      [Effect.chatAction (-100) "typing", Effect.llmChat "hi".toList,
        Effect.sendMessage (-100) (MsgKind.aiAnswer "hi".toList) (some 55)] := by
  with_unfolding_all rfl

/-- C9 (amended): an empty identity allow-list rejects all *private*
traffic — every valid private message is answered with the single
access-denied reply and never reaches dispatch or an LLM call — but group
traffic is not filtered by the empty allow-list: the per-user group check
only applies when the allow-list is nonempty, so mentioned group messages
proceed to dispatch. -/
theorem C9_empty_allowlist :
    ∀ (cfg : Config) (o : Oracle) (upd : Update) (s : BotState) (now now2 : ℚ)
      (uid cid : Int),
      cfg.allowed_users = [] →
      upd.has_message = true →
      upd.from_id = some uid → uid ≠ 0 →
      upd.chat_id = some cid → cid ≠ 0 →
      is_group_chat upd.chat_type = false →
      telegram_webhook cfg o upd s now now2 =
        ([Effect.sendMessage cid (MsgKind.accessDenied uid) none], s) := by
  intro cfg o upd s now now2 uid cid hemp hm hf hu0 hc hc0 hg
  exact webhook_private_denied cfg o upd s now now2 uid cid hm hf hu0 hc hc0 hg
    (by simp [hemp])

/-- Witness for C9: with an empty allow-list, private user 7 gets exactly
the access-denied reply and no other effect. -/
theorem C9_empty_allowlist_witness :
    telegram_webhook ⟨[], [], "mybot".toList, 99⟩ ⟨true, true, true, true⟩
        ⟨true, some 7, some 42, "private", some 1, "hello".toList, [], [], [], false, none,
          false, none⟩ emptyState 0 0 =
      ([Effect.sendMessage 42 (MsgKind.accessDenied 7) none], emptyState) :=
  C9_empty_allowlist _ _ _ _ 0 0 7 42 rfl rfl rfl (by decide) rfl (by decide) rfl

/-! ### Caption substitution (C10) -/

/-- The webhook reads the update's text and entities only through
`effectiveText`/`effectiveEntities`; updates agreeing on every read
projection are processed identically. -/
theorem webhook_congr (cfg : Config) (o : Oracle) (a b : Update) (s : BotState)
    (now now2 : ℚ)
    (h1 : a.has_message = b.has_message)
    (h2 : a.from_id = b.from_id) (h3 : a.chat_id = b.chat_id)
    (h4 : a.chat_type = b.chat_type) (h5 : a.message_id = b.message_id)
    (h6 : effectiveText a = effectiveText b)
    (h7 : effectiveEntities a = effectiveEntities b)
    (h8 : a.has_reply = b.has_reply) (h9 : a.reply_from_id = b.reply_from_id)
    (h10 : a.has_photo = b.has_photo) (h11 : a.photo_file_id = b.photo_file_id) :
    telegram_webhook cfg o a s now now2 = telegram_webhook cfg o b s now now2 := by
  simp only [telegram_webhook, h1, h2, h3, h4, h5, h6, h7, h8, h9, h10, h11]

/-- C10: when a message carries a photo and a nonempty caption, the
caption and its entities replace the text and entities before everything
else runs — processing the update is identical to processing the update
with `text := caption, entities := caption_entities`; a photo with an
empty caption leaves the text field untouched; a photo captioned
`/edit make it blue` is classified as `edit` with payload
`make it blue`. -/
theorem C10_caption_substitution :
    (∀ (cfg : Config) (o : Oracle) (upd : Update) (s : BotState) (now now2 : ℚ),
      upd.has_photo = true → upd.caption ≠ [] →
      telegram_webhook cfg o upd s now now2 =
        telegram_webhook cfg o (substMsg upd) s now now2) ∧
    (∀ upd : Update, upd.has_photo = true → upd.caption = [] →
      effectiveText upd = upd.text ∧ effectiveEntities upd = upd.entities) ∧
    (∀ upd : Update, upd.has_photo = true → upd.caption = "/edit make it blue".toList →
      parse_image_command (effectiveText upd) = ("edit", "make it blue".toList)) := by
  refine ⟨fun cfg o upd s now now2 hp hcap => ?_, fun upd hp hcap => ?_, fun upd hp hcap => ?_⟩
  · exact webhook_congr cfg o upd (substMsg upd) s now now2 rfl rfl rfl rfl rfl
      (by simp [effectiveText, substMsg, hp, hcap]) (by simp [effectiveEntities, substMsg, hp, hcap])
      rfl rfl rfl rfl
  · rw [effectiveText, effectiveEntities]
    rw [if_neg (by simp [hcap]), if_neg (by simp [hcap])]
    exact ⟨rfl, rfl⟩
  · have he : effectiveText upd = "/edit make it blue".toList := by
      rw [effectiveText, if_pos ⟨hp, by simp [hcap]⟩, hcap]
    rw [he]
    with_unfolding_all rfl

/-- Witness for C10: a photo update captioned `/edit make it blue` is
processed exactly like its caption-substituted form, and its caption is
what gets classified. -/
theorem C10_caption_substitution_witness :
    telegram_webhook ⟨[7], [], "mybot".toList, 99⟩ ⟨true, true, true, true⟩
        ⟨true, some 7, some 42, "private", some 1, [], "/edit make it blue".toList, [], [],
          false, none, true, some "f1"⟩ emptyState 0 0 =
      telegram_webhook ⟨[7], [], "mybot".toList, 99⟩ ⟨true, true, true, true⟩
        (substMsg ⟨true, some 7, some 42, "private", some 1, [], "/edit make it blue".toList,
          [], [], false, none, true, some "f1"⟩) emptyState 0 0 ∧
    parse_image_command (effectiveText
        ⟨true, some 7, some 42, "private", some 1, [], "/edit make it blue".toList, [], [],
          false, none, true, some "f1"⟩) = ("edit", "make it blue".toList) := by
  constructor
  · exact C10_caption_substitution.1 _ _ _ _ 0 0 rfl (by decide)
  · exact C10_caption_substitution.2.2 _ rfl rfl

/-! ### The reported wait time (C2) -/

theorem is_rate_limited_of_true {s : BotState} {u : Int} {now : ℚ}
    (h : (is_rate_limited s u now).1 = true) : is_rate_limited s u now = (true, s) := by
  by_cases hc : RATE_LIMIT ≤ (pruneLog RATE_WINDOW now (s.user_requests u)).length
  · exact is_rate_limited_reject hc
  · rw [is_rate_limited_admitted (by omega)] at h
    simp at h

theorem is_image_rate_limited_of_true {s : BotState} {u : Int} {now : ℚ}
    (h : (is_image_rate_limited s u now).1.1 = true) :
    is_image_rate_limited s u now =
      ((true, some (pyInt ((pruneLog IMAGE_RATE_WINDOW now (s.user_image_requests u)).headI +
        IMAGE_RATE_WINDOW - now))), s) := by
  by_cases hc : IMAGE_RATE_LIMIT ≤ (pruneLog IMAGE_RATE_WINDOW now (s.user_image_requests u)).length
  · exact is_image_rate_limited_reject hc
  · rw [is_image_rate_limited_admitted (by omega)] at h
    simp at h

/-- C2 as stated is false in its positivity/clamping part: a user with
five image requests at times 0..4 checked at `now = 299.5` is rejected and
the value surfaced to the caller is `int(0 + 300 - 299.5) = 0`, which is
not strictly positive, and no caller-side clamping exists (the webhook
interpolates the returned value directly into the reply). -/
theorem C2_counterexample :
    (is_image_rate_limited ⟨fun _ => [], fun v => if v = 3 then [0, 1, 2, 3, 4] else []⟩
      3 (599/2)).1 = (true, some 0) := by
  with_unfolding_all rfl

/-- C2 (amended): when the image check rejects, the reported wait time is
the integer truncation of `oldest_remaining + window - now`, where
`oldest_remaining` is the earliest timestamp still inside the window after
pruning; that value is nonnegative (but may be 0).  On a text rejection
the webhook computes the surfaced wait from the head of the *stored*
(unpruned) log at a second clock read and displays its truncation without
any clamping. -/
theorem C2_wait_time :
    (∀ (s : BotState) (u : Int) (now : ℚ),
      (is_image_rate_limited s u now).1.1 = true →
      (is_image_rate_limited s u now).1.2 =
        some (pyInt ((pruneLog IMAGE_RATE_WINDOW now (s.user_image_requests u)).headI +
          IMAGE_RATE_WINDOW - now)) ∧
      now - (pruneLog IMAGE_RATE_WINDOW now (s.user_image_requests u)).headI <
        IMAGE_RATE_WINDOW ∧
      ∀ r : Int, (is_image_rate_limited s u now).1.2 = some r → 0 ≤ r) ∧
    (∀ (cfg : Config) (o : Oracle) (upd : Update) (s : BotState) (now now2 : ℚ)
      (uid cid : Int),
      upd.has_message = true →
      upd.from_id = some uid → uid ≠ 0 →
      upd.chat_id = some cid → cid ≠ 0 →
      is_group_chat upd.chat_type = false →
      uid ∈ cfg.allowed_users →
      stripL (effectiveText upd) ≠ "/help".toList →
      stripL (effectiveText upd) ≠ "/hilfe".toList →
      stripL (effectiveText upd) ≠ "/start".toList →
      (parse_image_command (effectiveText upd)).1 = "text" →
      (is_rate_limited s uid now).1 = true →
      telegram_webhook cfg o upd s now now2 =
        ([Effect.sendMessage cid
          (MsgKind.textRateLimit (pyInt ((s.user_requests uid).headI + RATE_WINDOW - now2)))
          none], s)) := by
  constructor
  · intro s u now h
    have hstep := is_image_rate_limited_of_true h
    have hcount : IMAGE_RATE_LIMIT ≤
        (pruneLog IMAGE_RATE_WINDOW now (s.user_image_requests u)).length := by
      by_cases hc : IMAGE_RATE_LIMIT ≤
          (pruneLog IMAGE_RATE_WINDOW now (s.user_image_requests u)).length
      · exact hc
      · rw [is_image_rate_limited_admitted (by omega)] at h
        simp at h
    have hne : pruneLog IMAGE_RATE_WINDOW now (s.user_image_requests u) ≠ [] := by
      intro hnil
      rw [hnil] at hcount
      simp [IMAGE_RATE_LIMIT] at hcount
    have hmem := headI_mem_of_ne_nil hne
    have hwin : now - (pruneLog IMAGE_RATE_WINDOW now (s.user_image_requests u)).headI <
        IMAGE_RATE_WINDOW := by
      have := List.of_mem_filter hmem
      simpa using this
    refine ⟨by rw [hstep], hwin, ?_⟩
    intro r hr
    rw [hstep] at hr
    simp only [Option.some.injEq] at hr
    rw [← hr]
    exact pyInt_nonneg (by linarith)
  · intro cfg o upd s now now2 uid cid hm hf hu0 hc hc0 hg hin hh1 hh2 hh3 hcmd hrej
    have hstep := is_rate_limited_of_true hrej
    simp [telegram_webhook, hm, hf, hc, hg, hu0, hc0, hin, hh1, hh2, hh3, hcmd,
      truthyId, hstep]
    exact ⟨fun hx => hh1 (hx.trans (by rfl)), fun hx => hh2 (hx.trans (by rfl)),
      fun hx => hh3 (hx.trans (by rfl))⟩

/-- Witness for C2: a user with image log `[0,1,2,3,4]` checked at
`now = 100` is rejected with `some (int(0 + 300 - 100))`; a private user
`7` on the allow-list with ten stored text stamps `0..9` checked at
`now = 5` gets exactly one rate-limit reply computed from the stored head
at the second clock read `now2 = 6`. -/
theorem C2_wait_time_witness :
    ((is_image_rate_limited ⟨fun _ => [], fun v => if v = 3 then [0, 1, 2, 3, 4] else []⟩
        3 100).1.2 =
      some (pyInt ((pruneLog IMAGE_RATE_WINDOW 100
        ((⟨fun _ => [], fun v => if v = 3 then [0, 1, 2, 3, 4] else []⟩ :
          BotState).user_image_requests 3)).headI + IMAGE_RATE_WINDOW - 100))) ∧
    telegram_webhook ⟨[7], [], "mybot".toList, 99⟩ ⟨true, true, true, true⟩
        ⟨true, some 7, some 42, "private", some 1, "hello".toList, [], [], [], false, none,
          false, none⟩
        ⟨fun v => if v = 7 then [0, 1, 2, 3, 4, 5, 6, 7, 8, 9] else [], fun _ => []⟩ 5 6 =
      ([Effect.sendMessage 42
        (MsgKind.textRateLimit (pyInt
          (((⟨fun v => if v = 7 then [0, 1, 2, 3, 4, 5, 6, 7, 8, 9] else [], fun _ => []⟩ :
            BotState).user_requests 7).headI + RATE_WINDOW - 6))) none],
        ⟨fun v => if v = 7 then [0, 1, 2, 3, 4, 5, 6, 7, 8, 9] else [], fun _ => []⟩) := by
  constructor
  · exact (C2_wait_time.1 _ 3 100 (by with_unfolding_all rfl)).1
  · exact C2_wait_time.2 _ _ _ _ 5 6 7 42 rfl rfl (by decide) rfl (by decide)
      rfl (by decide) (by decide) (by decide) (by decide) (by decide)
      (by with_unfolding_all rfl)

/-- Witness for C3: at `now = 30` a user with ten in-window entries is
rejected with the store unchanged, and a first-ever user is admitted with
`[now]` recorded. -/
theorem C3_store_effects_witness :
    (is_rate_limited
      ⟨fun v => if v = 7 then [0, 1, 2, 3, 4, 5, 6, 7, 8, 9] else [], fun _ => []⟩ 7 30).2 =
      ⟨fun v => if v = 7 then [0, 1, 2, 3, 4, 5, 6, 7, 8, 9] else [], fun _ => []⟩ ∧
    (is_rate_limited emptyState 5 (1/2)).2.user_requests 5 = [1/2] := by
  constructor
  · exact C3_store_effects.1 _ 7 30 (by with_unfolding_all rfl)
  · have h := (C3_store_effects.2.1 emptyState 5 (1/2) (by with_unfolding_all rfl)).1
    rw [h]
    with_unfolding_all rfl

end Automate
